import Mathlib

/-!
Verification of the training loop in `train.py` (functions `train`,
`train_epoch`, `validate_epoch`).

The loop is embedded shallowly:
* floats are modelled as rationals;
* Python float division raises `ZeroDivisionError` on a zero denominator,
  so it returns `Except`;
* the external collaborators (device placement, the model's forward pass,
  the loss function, and the backward/optimizer step) are an abstract
  record of `Except`-returning functions — any of them may raise;
* the model's mutable train/eval mode flag and its parameters are threaded
  explicitly; `wandb.log` calls are collected in an output list.
-/

namespace VoidTrain

/-- A Python exception: either a `ZeroDivisionError` raised by the `/`
operator, or an exception value of type `E` raised by an external
collaborator (model, loss function, optimizer, device transfer). -/
inductive PyErr (E : Type) where
  | zeroDivisionError : PyErr E
  | exc : E → PyErr E
deriving DecidableEq, Repr

/-- Python `x / n` where `n` is a length (an `int`): raises
`ZeroDivisionError` when `n = 0`, otherwise true (here: rational)
division. -/
def pydiv {E : Type} (x : ℚ) (n : Nat) : Except (PyErr E) ℚ :=
  if n = 0 then .error .zeroDivisionError else .ok (x / (n : ℚ))

/-- The model's train/eval mode flag, toggled by `model.train()` and
`model.eval()`. -/
inductive Mode where
  | trainMode : Mode
  | evalMode : Mode
deriving DecidableEq, Repr

/-- A model: parameters of abstract type `Θ` plus the mutable mode flag. -/
structure Model (Θ : Type) where
  params : Θ
  mode : Mode
deriving DecidableEq, Repr

/-- The external collaborators used by the loop, abstract over parameter
type `Θ`, optimizer-state type `O`, input-batch type `In` and exception
type `E`.  A batch's model output is a `[batch_size, num_classes]` tensor
of rationals (per-example logits); targets are integer class indices.

* `toDevice` models `wav.to(device), target.to(device)` (line 68/96);
* `forward` models `model(wav)` (line 71/98) — a function of the current
  parameters, the mode flag and the input;
* `lossFn` models `loss_fn(output, target)` together with `.item()`
  (lines 72, 80 / 99, 101);
* `backstep` models `optimizer.zero_grad(); loss.backward();
  optimizer.step()` (lines 75-77): it may update the parameters and the
  optimizer state. -/
structure TorchEnv (Θ O In E : Type) where
  toDevice : In → List Nat → Except (PyErr E) (In × List Nat)
  forward : Θ → Mode → In → Except (PyErr E) (List (List ℚ))
  lossFn : List (List ℚ) → List Nat → Except (PyErr E) ℚ
  backstep : Θ → O → In → List Nat → Except (PyErr E) (Θ × O)

/-- Index of the first maximal element from position `i` onwards, given
the best index/value seen so far.  Helper for `argmaxRow`. -/
def argmaxFrom (i best : Nat) (bestv : ℚ) : List ℚ → Nat
  | [] => best
  | x :: xs =>
    if bestv < x then argmaxFrom (i + 1) i x xs
    else argmaxFrom (i + 1) best bestv xs

/-- `torch.argmax` along the class dimension for one example's logits:
index of the (first) maximal logit.  (`torch.argmax(output, 1)` applies
this to every row.) -/
def argmaxRow : List ℚ → Nat
  | [] => 0
  | x :: xs => argmaxFrom 1 0 x xs

/-- Lines 81-82 / 102-103: `prediction = torch.argmax(output, 1)` and
`(prediction == target).sum().item() / len(prediction)` — the fraction of
examples in the batch whose predicted class equals the target.  The final
division is Python division, so it raises `ZeroDivisionError` on an empty
prediction tensor. -/
def batchAccFrac {E : Type} (output : List (List ℚ)) (target : List Nat) :
    Except (PyErr E) ℚ :=
  let prediction := output.map argmaxRow
  pydiv ((((prediction.zip target).countP fun p => p.1 == p.2) : Nat) : ℚ)
    prediction.length

/-- The body of `train_epoch`'s batch loop (lines 67-83) for one batch:
device transfer, forward, loss, backward/optimizer step, and this batch's
contributions (loss value, accuracy fraction).  Any collaborator
exception propagates. -/
def trainBatch {Θ O In E : Type} (env : TorchEnv Θ O In E) (θ : Θ) (opt : O)
    (b : In × List Nat) : Except (PyErr E) (Θ × O × ℚ × ℚ) :=
  match env.toDevice b.1 b.2 with
  | .error e => .error e
  | .ok (wav, target) =>
    match env.forward θ Mode.trainMode wav with
    | .error e => .error e
    | .ok output =>
      match env.lossFn output target with
      | .error e => .error e
      | .ok loss =>
        match env.backstep θ opt wav target with
        | .error e => .error e
        | .ok (θ', opt') =>
          match batchAccFrac output target with
          | .error e => .error e
          | .ok frac => .ok (θ', opt', loss, frac)

/-- The batch loop of `train_epoch` (lines 67-83), accumulating
`train_loss`, `train_acc` and `total` across the dataloader. -/
def trainLoop {Θ O In E : Type} (env : TorchEnv Θ O In E) (θ : Θ) (opt : O)
    (train_loss train_acc total : ℚ) :
    List (In × List Nat) → Except (PyErr E) (Θ × O × ℚ × ℚ × ℚ)
  | [] => .ok (θ, opt, train_loss, train_acc, total)
  | b :: bs =>
    match trainBatch env θ opt b with
    | .error e => .error e
    | .ok (θ', opt', loss, frac) =>
      trainLoop env θ' opt' (train_loss + loss) (train_acc + frac)
        (total + 1) bs

/-- `train_epoch` (train.py lines 60-85): sets the model to training mode
(line 65), runs the batch loop from zeroed accumulators, and returns
`(train_loss, train_acc)` (line 85) together with the updated model and
optimizer state. -/
def train_epoch {Θ O In E : Type} (env : TorchEnv Θ O In E) (model : Model Θ)
    (opt : O) (train_dataloader : List (In × List Nat)) :
    Except (PyErr E) (Model Θ × O × ℚ × ℚ) :=
  match trainLoop env model.params opt 0 0 0 train_dataloader with
  | .error e => .error e
  | .ok (θ', opt', train_loss, train_acc, _total) =>
    .ok (Model.mk θ' Mode.trainMode, opt', train_loss, train_acc)

/-- The body of `validate_epoch`'s batch loop (lines 95-104) for one
batch: device transfer, forward, loss, and this batch's contributions.
No backward pass and no optimizer step occur. -/
def validBatch {Θ O In E : Type} (env : TorchEnv Θ O In E) (θ : Θ)
    (b : In × List Nat) : Except (PyErr E) (ℚ × ℚ) :=
  match env.toDevice b.1 b.2 with
  | .error e => .error e
  | .ok (wav, target) =>
    match env.forward θ Mode.evalMode wav with
    | .error e => .error e
    | .ok output =>
      match env.lossFn output target with
      | .error e => .error e
      | .ok loss =>
        match batchAccFrac output target with
        | .error e => .error e
        | .ok frac => .ok (loss, frac)

/-- The batch loop of `validate_epoch` (lines 95-104), accumulating
`test_loss`, `test_acc` and `total`. -/
def validLoop {Θ O In E : Type} (env : TorchEnv Θ O In E) (θ : Θ)
    (test_loss test_acc total : ℚ) :
    List (In × List Nat) → Except (PyErr E) (ℚ × ℚ × ℚ)
  | [] => .ok (test_loss, test_acc, total)
  | b :: bs =>
    match validBatch env θ b with
    | .error e => .error e
    | .ok (loss, frac) =>
      validLoop env θ (test_loss + loss) (test_acc + frac) (total + 1) bs

/-- `validate_epoch` (train.py lines 87-106): sets the model to evaluation
mode (line 92), runs the gradient-free batch loop, and returns
`(test_loss, test_acc)` (line 106) together with the model (whose
parameters it never touches). -/
def validate_epoch {Θ O In E : Type} (env : TorchEnv Θ O In E)
    (model : Model Θ) (test_dataloader : List (In × List Nat)) :
    Except (PyErr E) (Model Θ × ℚ × ℚ) :=
  match validLoop env model.params 0 0 0 test_dataloader with
  | .error e => .error e
  | .ok (test_loss, test_acc, _total) =>
    .ok (Model.mk model.params Mode.evalMode, test_loss, test_acc)

/-- Everything `train` produces: the value of line 57
`return training_acc, training_loss, testing_acc, testing_loss` in `ret`
(in exactly that component order), plus the threaded state — the final
model and optimizer state — and the sequence of `wandb.log` emissions,
each a list of (key, value) pairs. -/
structure TrainOutput (Θ O : Type) where
  ret : List ℚ × List ℚ × List ℚ × List ℚ
  model : Model Θ
  opt : O
  logs : List (List (String × ℚ))
deriving DecidableEq, Repr

/-- Python truthiness of `test_dataloader` at line 43: `None` is falsy,
and a dataloader with `__len__` is falsy iff its length is zero. -/
def dlTruthy {α : Type} : Option (List α) → Bool
  | none => false
  | some l => !l.isEmpty

/-- The epoch loop of `train` (lines 30-54), by recursion on the number
of epochs still to run; the four metric lists and the emission log are
accumulators.  Each iteration: `train_epoch`, normalize both sums by
`len(train_dataloader)` (raising `ZeroDivisionError` on an empty
dataloader), append and emit; then, if `test_dataloader` is truthy,
`validate_epoch`, normalize by `len(test_dataloader)`, append and emit. -/
def trainEpochsLoop {Θ O In E : Type} (env : TorchEnv Θ O In E)
    (train_dataloader : List (In × List Nat))
    (test_dataloader : Option (List (In × List Nat))) (model : Model Θ)
    (opt : O) (training_acc training_loss testing_acc testing_loss : List ℚ)
    (logs : List (List (String × ℚ))) :
    Nat → Except (PyErr E) (TrainOutput Θ O)
  | 0 => .ok ⟨(training_acc, training_loss, testing_acc, testing_loss),
      model, opt, logs⟩
  | k + 1 =>
    match train_epoch env model opt train_dataloader with
    | .error e => .error e
    | .ok (model1, opt1, epoch_loss, epoch_acc) =>
      match pydiv epoch_loss train_dataloader.length with
      | .error e => .error e
      | .ok lossAvg =>
        match pydiv epoch_acc train_dataloader.length with
        | .error e => .error e
        | .ok accAvg =>
          let training_loss1 := training_loss ++ [lossAvg]
          let training_acc1 := training_acc ++ [accAvg]
          let logs1 := logs ++ [[("training_loss", lossAvg),
            ("training_acc", accAvg)]]
          match test_dataloader with
          | none =>
            trainEpochsLoop env train_dataloader test_dataloader model1 opt1
              training_acc1 training_loss1 testing_acc testing_loss logs1 k
          | some tdl =>
            if tdl.isEmpty then
              trainEpochsLoop env train_dataloader test_dataloader model1
                opt1 training_acc1 training_loss1 testing_acc testing_loss
                logs1 k
            else
              match validate_epoch env model1 tdl with
              | .error e => .error e
              | .ok (model2, vloss, vacc) =>
                match pydiv vloss tdl.length with
                | .error e => .error e
                | .ok vlossAvg =>
                  match pydiv vacc tdl.length with
                  | .error e => .error e
                  | .ok vaccAvg =>
                    trainEpochsLoop env train_dataloader test_dataloader
                      model2 opt1 training_acc1 training_loss1
                      (testing_acc ++ [vaccAvg])
                      (testing_loss ++ [vlossAvg])
                      (logs1 ++ [[("testing_loss", vlossAvg),
                        ("testing_acc", vaccAvg)]]) k

/-- `train` (train.py lines 24-57).  In the source `test_dataloader`
defaults to `None`; pass `none` for that case.  Returns the line-57 tuple
`(training_acc, training_loss, testing_acc, testing_loss)` together with
the final model/optimizer state and the `wandb.log` emissions. -/
def train {Θ O In E : Type} (env : TorchEnv Θ O In E) (model : Model Θ)
    (opt : O) (train_dataloader : List (In × List Nat)) (epochs : Nat)
    (test_dataloader : Option (List (In × List Nat))) :
    Except (PyErr E) (TrainOutput Θ O) :=
  trainEpochsLoop env train_dataloader test_dataloader model opt
    [] [] [] [] [] epochs

/-! ### A concrete instantiation: the four-batch scenario of the spec -/

/-- The four training batches of the scenario: batch `k` (for
`k = 1, .., 4`) has input `k` and two examples; the targets are chosen so
that, under `scenarioEnv`, the per-batch accuracy fractions are
`[1, 1/2, 1/2, 0]`. -/
def scenarioBatches : List (ℚ × List Nat) :=
  [(1, [0, 0]), (2, [0, 1]), (3, [0, 1]), (4, [1, 1])]

/-- A concrete environment: batch `k` gets logits `[[k, 0], [k, 0]]` (so
every example is predicted as class 0) and loss `k` (the head logit), and
the backward/optimizer step leaves parameters and optimizer state
unchanged. -/
def scenarioEnv : TorchEnv Unit Unit ℚ Unit :=
  ⟨fun wav target => .ok (wav, target),
   fun _ _ k => .ok [[k, 0], [k, 0]],
   fun output _ => .ok ((output.headD []).headD 0),
   fun θ opt _ _ => .ok (θ, opt)⟩

/-- Evaluating `train_epoch` on the scenario: per-batch losses
`[1, 2, 3, 4]` and accuracy fractions `[1, 1/2, 1/2, 0]` sum to
`(10, 2)`. -/
theorem scenario_epoch_run :
    train_epoch scenarioEnv (Model.mk () Mode.trainMode) () scenarioBatches
      = .ok (Model.mk () Mode.trainMode, (), 10, 2) := by
  simp [train_epoch, trainLoop, trainBatch, batchAccFrac, pydiv, argmaxRow,
    argmaxFrom, scenarioEnv, scenarioBatches, List.countP, List.countP.go]
  norm_num [cond_eq_if]

/-- Evaluating `train` for one epoch on the scenario, without validation:
the sums `(10, 2)` are normalized by the batch count `4`. -/
theorem scenario_train_run :
    train scenarioEnv (Model.mk () Mode.trainMode) () scenarioBatches 1 none
      = .ok ⟨([1/2], [5/2], [], []), Model.mk () Mode.trainMode, (),
          [[("training_loss", 5/2), ("training_acc", 1/2)]]⟩ := by
  simp [train, trainEpochsLoop, train_epoch, trainLoop, trainBatch,
    batchAccFrac, pydiv, argmaxRow, argmaxFrom, scenarioEnv, scenarioBatches,
    List.countP, List.countP.go]
  norm_num [cond_eq_if]

/-- Evaluating `validate_epoch` on the scenario batches. -/
theorem scenario_validate_run :
    validate_epoch scenarioEnv (Model.mk () Mode.trainMode) scenarioBatches
      = .ok (Model.mk () Mode.evalMode, 10, 2) := by
  simp [validate_epoch, validLoop, validBatch, batchAccFrac, pydiv, argmaxRow,
    argmaxFrom, scenarioEnv, scenarioBatches, List.countP, List.countP.go]
  norm_num [cond_eq_if]

/-- Evaluating `train` for one epoch on the scenario with the same data as
validation set. -/
theorem scenario_train_valid_run :
    train scenarioEnv (Model.mk () Mode.trainMode) () scenarioBatches 1
        (some scenarioBatches)
      = .ok ⟨([1/2], [5/2], [1/2], [5/2]), Model.mk () Mode.evalMode, (),
          [[("training_loss", 5/2), ("training_acc", 1/2)],
           [("testing_loss", 5/2), ("testing_acc", 1/2)]]⟩ := by
  simp [train, trainEpochsLoop, train_epoch, trainLoop, trainBatch,
    validate_epoch, validLoop, validBatch, batchAccFrac, pydiv, argmaxRow,
    argmaxFrom, scenarioEnv, scenarioBatches, List.countP, List.countP.go]
  norm_num [cond_eq_if]

/-! ### Structural lemmas about the batch loops and the epoch loop -/

/-- Splitting the `train_epoch` batch loop at a list append. -/
theorem trainLoop_append {Θ O In E : Type} (env : TorchEnv Θ O In E) :
    ∀ (l₁ l₂ : List (In × List Nat)) (θ : Θ) (opt : O) (L A T : ℚ),
      trainLoop env θ opt L A T (l₁ ++ l₂) =
        match trainLoop env θ opt L A T l₁ with
        | .error e => .error e
        | .ok (θ', opt', L', A', T') => trainLoop env θ' opt' L' A' T' l₂ := by
  intro l₁
  induction l₁ with
  | nil => intro l₂ θ opt L A T; rfl
  | cons b bs ih =>
    intro l₂ θ opt L A T
    simp only [List.cons_append, trainLoop]
    cases trainBatch env θ opt b with
    | error e => rfl
    | ok s =>
      obtain ⟨θ', opt', loss, frac⟩ := s
      exact ih l₂ θ' opt' (L + loss) (A + frac) (T + 1)

/-- Splitting the `validate_epoch` batch loop at a list append. -/
theorem validLoop_append {Θ O In E : Type} (env : TorchEnv Θ O In E) (θ : Θ) :
    ∀ (l₁ l₂ : List (In × List Nat)) (L A T : ℚ),
      validLoop env θ L A T (l₁ ++ l₂) =
        match validLoop env θ L A T l₁ with
        | .error e => .error e
        | .ok (L', A', T') => validLoop env θ L' A' T' l₂ := by
  intro l₁
  induction l₁ with
  | nil => intro l₂ L A T; rfl
  | cons b bs ih =>
    intro l₂ L A T
    simp only [List.cons_append, validLoop]
    cases validBatch env θ b with
    | error e => rfl
    | ok s =>
      obtain ⟨loss, frac⟩ := s
      exact ih l₂ (L + loss) (A + frac) (T + 1)

/-- If `train_epoch` raises in an epoch, the epoch loop of `train` raises
that very exception. -/
theorem trainEpochsLoop_trainEpoch_error {Θ O In E : Type}
    (env : TorchEnv Θ O In E) (dl : List (In × List Nat))
    (tdl : Option (List (In × List Nat))) (model : Model Θ) (opt : O)
    (ta tl sa sl : List ℚ) (logs : List (List (String × ℚ))) (k : Nat)
    (e : PyErr E) (htr : train_epoch env model opt dl = .error e) :
    trainEpochsLoop env dl tdl model opt ta tl sa sl logs (k + 1)
      = .error e := by
  simp only [trainEpochsLoop, htr]

/-- One successful epoch-loop step without validation data. -/
theorem trainEpochsLoop_succ_none {Θ O In E : Type}
    (env : TorchEnv Θ O In E) (dl : List (In × List Nat)) (model m1 : Model Θ)
    (opt o1 : O) (ta tl sa sl : List ℚ) (logs : List (List (String × ℚ)))
    (k : Nat) (L A la aa : ℚ)
    (htr : train_epoch env model opt dl = .ok (m1, o1, L, A))
    (hla : (pydiv L dl.length : Except (PyErr E) ℚ) = .ok la)
    (haa : (pydiv A dl.length : Except (PyErr E) ℚ) = .ok aa) :
    trainEpochsLoop env dl none model opt ta tl sa sl logs (k + 1) =
      trainEpochsLoop env dl none m1 o1 (ta ++ [aa]) (tl ++ [la]) sa sl
        (logs ++ [[("training_loss", la), ("training_acc", aa)]]) k := by
  simp only [trainEpochsLoop, htr, hla, haa]

/-- One successful epoch-loop step with a supplied-but-empty validation
dataloader: it behaves exactly like the no-validation step. -/
theorem trainEpochsLoop_succ_someEmpty {Θ O In E : Type}
    (env : TorchEnv Θ O In E) (dl : List (In × List Nat)) (model m1 : Model Θ)
    (opt o1 : O) (ta tl sa sl : List ℚ) (logs : List (List (String × ℚ)))
    (k : Nat) (L A la aa : ℚ)
    (htr : train_epoch env model opt dl = .ok (m1, o1, L, A))
    (hla : (pydiv L dl.length : Except (PyErr E) ℚ) = .ok la)
    (haa : (pydiv A dl.length : Except (PyErr E) ℚ) = .ok aa) :
    trainEpochsLoop env dl (some []) model opt ta tl sa sl logs (k + 1) =
      trainEpochsLoop env dl (some []) m1 o1 (ta ++ [aa]) (tl ++ [la]) sa sl
        (logs ++ [[("training_loss", la), ("training_acc", aa)]]) k := by
  simp only [trainEpochsLoop, htr, hla, haa, List.isEmpty_nil, if_true]

/-- One successful epoch-loop step with nonempty validation data. -/
theorem trainEpochsLoop_succ_some {Θ O In E : Type}
    (env : TorchEnv Θ O In E) (dl l : List (In × List Nat))
    (model m1 m2 : Model Θ) (opt o1 : O) (ta tl sa sl : List ℚ)
    (logs : List (List (String × ℚ))) (k : Nat) (L A la aa VL VA vla vaa : ℚ)
    (hne : l.isEmpty = false)
    (htr : train_epoch env model opt dl = .ok (m1, o1, L, A))
    (hla : (pydiv L dl.length : Except (PyErr E) ℚ) = .ok la)
    (haa : (pydiv A dl.length : Except (PyErr E) ℚ) = .ok aa)
    (hv : validate_epoch env m1 l = .ok (m2, VL, VA))
    (hvl : (pydiv VL l.length : Except (PyErr E) ℚ) = .ok vla)
    (hva : (pydiv VA l.length : Except (PyErr E) ℚ) = .ok vaa) :
    trainEpochsLoop env dl (some l) model opt ta tl sa sl logs (k + 1) =
      trainEpochsLoop env dl (some l) m2 o1 (ta ++ [aa]) (tl ++ [la])
        (sa ++ [vaa]) (sl ++ [vla])
        ((logs ++ [[("training_loss", la), ("training_acc", aa)]])
          ++ [[("testing_loss", vla), ("testing_acc", vaa)]]) k := by
  simp only [trainEpochsLoop, htr, hla, haa, hne, hv, hvl, hva,
    Bool.false_eq_true, if_false]

/-- If `validate_epoch` raises in an epoch (after a successful training
pass and normalization), the epoch loop of `train` raises that very
exception. -/
theorem trainEpochsLoop_validate_error {Θ O In E : Type}
    (env : TorchEnv Θ O In E) (dl l : List (In × List Nat))
    (model m1 : Model Θ) (opt o1 : O) (ta tl sa sl : List ℚ)
    (logs : List (List (String × ℚ))) (k : Nat) (L A la aa : ℚ)
    (e : PyErr E) (hne : l.isEmpty = false)
    (htr : train_epoch env model opt dl = .ok (m1, o1, L, A))
    (hla : (pydiv L dl.length : Except (PyErr E) ℚ) = .ok la)
    (haa : (pydiv A dl.length : Except (PyErr E) ℚ) = .ok aa)
    (hv : validate_epoch env m1 l = .error e) :
    trainEpochsLoop env dl (some l) model opt ta tl sa sl logs (k + 1)
      = .error e := by
  simp only [trainEpochsLoop, htr, hla, haa, hne, hv, Bool.false_eq_true,
    if_false]

/-- C1: for the four-batch scenario with per-batch losses `[1, 2, 3, 4]`
and accuracy fractions `[1, 1/2, 1/2, 0]`, `train_epoch` returns the sums
`(total_loss, total_accuracy) = (10, 2)`, and `train` normalizes by the
batch count 4, recording training_loss `5/2` and training_acc `1/2`, both
in the returned history and in the `wandb.log` emission. -/
theorem claim1_scenario_four_batches :
    train_epoch scenarioEnv (Model.mk () Mode.trainMode) () scenarioBatches
      = .ok (Model.mk () Mode.trainMode, (), 10, 2)
    ∧ train scenarioEnv (Model.mk () Mode.trainMode) () scenarioBatches 1 none
      = .ok ⟨([1/2], [5/2], [], []), Model.mk () Mode.trainMode, (),
          [[("training_loss", 5/2), ("training_acc", 1/2)]]⟩ :=
  ⟨scenario_epoch_run, scenario_train_run⟩

/-- C2 counterexample: on the concrete scenario, `train` returns the
quadruple `([1/2], [5/2], [], [])` — the training accuracy series first,
as in line 57 of the source — whereas the claimed order (training_loss
first) would require `([5/2], [1/2], [], [])`; the two differ. -/
theorem claim2_counterexample :
    train scenarioEnv (Model.mk () Mode.trainMode) () scenarioBatches 1 none
      = .ok ⟨([1/2], [5/2], [], []), Model.mk () Mode.trainMode, (),
          [[("training_loss", 5/2), ("training_acc", 1/2)]]⟩
    ∧ (([1/2], [5/2], [], []) : List ℚ × List ℚ × List ℚ × List ℚ)
      ≠ ([5/2], [1/2], [], []) :=
  ⟨scenario_train_run, by norm_num⟩

/-- C8: with an empty training dataloader and at least one epoch, `train`
raises `ZeroDivisionError` at the normalization
`train_epoch_loss / len(train_dataloader)` (line 37), for every
environment, model, optimizer state and validation argument; since the
call raises, no history entry is produced for the epoch. -/
theorem claim8_empty_dataloader_zero_division {Θ O In E : Type}
    (env : TorchEnv Θ O In E) (model : Model Θ) (opt : O)
    (tdl : Option (List (In × List Nat))) (k : Nat) :
    train env model opt [] (k + 1) tdl = .error .zeroDivisionError := by
  simp [train, trainEpochsLoop, train_epoch, trainLoop, pydiv]

/-- A supplied-but-empty validation dataloader drives the epoch loop
exactly like an absent one, from any intermediate state. -/
theorem epochsLoop_someEmpty_eq_none {Θ O In E : Type}
    (env : TorchEnv Θ O In E) (dl : List (In × List Nat)) :
    ∀ (k : Nat) (model : Model Θ) (opt : O) (ta tl sa sl : List ℚ)
      (logs : List (List (String × ℚ))),
      trainEpochsLoop env dl (some []) model opt ta tl sa sl logs k =
      trainEpochsLoop env dl none model opt ta tl sa sl logs k := by
  intro k
  induction k with
  | zero => intro model opt ta tl sa sl logs; rfl
  | succ k ih =>
    intro model opt ta tl sa sl logs
    cases htr : train_epoch env model opt dl with
    | error e =>
      rw [trainEpochsLoop_trainEpoch_error env dl (some []) model opt
          ta tl sa sl logs k e htr,
        trainEpochsLoop_trainEpoch_error env dl none model opt
          ta tl sa sl logs k e htr]
    | ok r =>
      obtain ⟨m1, o1, L, A⟩ := r
      cases hla : (pydiv L dl.length : Except (PyErr E) ℚ) with
      | error e => simp only [trainEpochsLoop, htr, hla]
      | ok la =>
        cases haa : (pydiv A dl.length : Except (PyErr E) ℚ) with
        | error e => simp only [trainEpochsLoop, htr, hla, haa]
        | ok aa =>
          rw [trainEpochsLoop_succ_someEmpty env dl model m1 opt o1
              ta tl sa sl logs k L A la aa htr hla haa,
            trainEpochsLoop_succ_none env dl model m1 opt o1
              ta tl sa sl logs k L A la aa htr hla haa]
          exact ih m1 o1 (ta ++ [aa]) (tl ++ [la]) sa sl
            (logs ++ [[("training_loss", la), ("training_acc", aa)]])

/-- C9: `train` tests `test_dataloader` by Python truthiness, so a
supplied validation dataloader of length 0 behaves exactly like `None`:
the two runs are equal in every observable — returned history, final
model and optimizer state, and emissions (in particular no testing
metrics appear and the testing normalization is never reached). -/
theorem claim9_empty_validation_like_none :
    ∀ (Θ O In E : Type) (env : TorchEnv Θ O In E) (model : Model Θ) (opt : O)
      (dl : List (In × List Nat)) (epochs : Nat),
      train env model opt dl epochs (some []) =
      train env model opt dl epochs none := by
  intro Θ O In E env model opt dl epochs
  exact epochsLoop_someEmpty_eq_none env dl epochs model opt [] [] [] [] []

/-- Entry counts of the four metric series after `k` further epochs of
the epoch loop, from any intermediate state. -/
theorem epochsLoop_lengths {Θ O In E : Type} (env : TorchEnv Θ O In E)
    (dl : List (In × List Nat)) (tdl : Option (List (In × List Nat))) :
    ∀ (k : Nat) (model : Model Θ) (opt : O) (ta tl sa sl : List ℚ)
      (logs : List (List (String × ℚ))) (q : TrainOutput Θ O),
      trainEpochsLoop env dl tdl model opt ta tl sa sl logs k = .ok q →
      q.ret.1.length = ta.length + k ∧ q.ret.2.1.length = tl.length + k ∧
      q.ret.2.2.1.length
        = sa.length + (if dlTruthy tdl = true then k else 0) ∧
      q.ret.2.2.2.length
        = sl.length + (if dlTruthy tdl = true then k else 0) := by
  intro k
  induction k with
  | zero =>
    intro model opt ta tl sa sl logs q h
    simp only [trainEpochsLoop] at h
    cases h
    simp
  | succ k ih =>
    intro model opt ta tl sa sl logs q h
    cases htr : train_epoch env model opt dl with
    | error e =>
      rw [trainEpochsLoop_trainEpoch_error env dl tdl model opt
          ta tl sa sl logs k e htr] at h
      exact Except.noConfusion h
    | ok r =>
      obtain ⟨m1, o1, L, A⟩ := r
      cases hla : (pydiv L dl.length : Except (PyErr E) ℚ) with
      | error e =>
        simp only [trainEpochsLoop, htr, hla] at h
        exact Except.noConfusion h
      | ok la =>
        cases haa : (pydiv A dl.length : Except (PyErr E) ℚ) with
        | error e =>
          simp only [trainEpochsLoop, htr, hla, haa] at h
          exact Except.noConfusion h
        | ok aa =>
          rcases tdl with _ | l
          · rw [trainEpochsLoop_succ_none env dl model m1 opt o1
                ta tl sa sl logs k L A la aa htr hla haa] at h
            obtain ⟨h1, h2, h3, h4⟩ := ih m1 o1 (ta ++ [aa]) (tl ++ [la])
              sa sl (logs ++ [[("training_loss", la), ("training_acc", aa)]])
              q h
            simp only [List.length_append, List.length_cons,
              List.length_nil] at h1 h2
            refine ⟨by omega, by omega, h3, h4⟩
          · rcases l with _ | ⟨b, bs⟩
            · rw [trainEpochsLoop_succ_someEmpty env dl model m1 opt o1
                  ta tl sa sl logs k L A la aa htr hla haa] at h
              obtain ⟨h1, h2, h3, h4⟩ := ih m1 o1 (ta ++ [aa]) (tl ++ [la])
                sa sl
                (logs ++ [[("training_loss", la), ("training_acc", aa)]]) q h
              simp only [List.length_append, List.length_cons,
                List.length_nil] at h1 h2
              refine ⟨by omega, by omega, h3, h4⟩
            · cases hv : validate_epoch env m1 (b :: bs) with
              | error e =>
                rw [trainEpochsLoop_validate_error env dl (b :: bs) model m1
                    opt o1 ta tl sa sl logs k L A la aa e rfl htr hla
                    haa hv] at h
                exact Except.noConfusion h
              | ok rv =>
                obtain ⟨m2, VL, VA⟩ := rv
                cases hvl : (pydiv VL (b :: bs).length
                    : Except (PyErr E) ℚ) with
                | error e =>
                  simp only [trainEpochsLoop, htr, hla, haa, hv, hvl,
                    List.isEmpty_cons, Bool.false_eq_true, if_false] at h
                  exact Except.noConfusion h
                | ok vla =>
                  cases hva : (pydiv VA (b :: bs).length
                      : Except (PyErr E) ℚ) with
                  | error e =>
                    simp only [trainEpochsLoop, htr, hla, haa, hv, hvl, hva,
                      List.isEmpty_cons, Bool.false_eq_true, if_false] at h
                    exact Except.noConfusion h
                  | ok vaa =>
                    rw [trainEpochsLoop_succ_some env dl (b :: bs) model m1
                        m2 opt o1 ta tl sa sl logs k L A la aa VL VA vla vaa
                        rfl htr hla haa hv hvl hva] at h
                    obtain ⟨h1, h2, h3, h4⟩ := ih m2 o1 (ta ++ [aa])
                      (tl ++ [la]) (sa ++ [vaa]) (sl ++ [vla])
                      ((logs ++ [[("training_loss", la),
                        ("training_acc", aa)]])
                        ++ [[("testing_loss", vla), ("testing_acc", vaa)]])
                      q h
                    simp only [List.length_append, List.length_cons,
                      List.length_nil, dlTruthy, List.isEmpty_cons,
                      Bool.not_false, if_true] at h1 h2 h3 h4 ⊢
                    refine ⟨by omega, by omega, by omega, by omega⟩

/-- C3: whenever `train` returns a history, the two training series have
exactly one entry per epoch; the two testing series have one entry per
epoch when the validation argument is truthy and none otherwise; and with
an epoch count of 0 the run always succeeds, returns four empty series,
leaves model and optimizer untouched, and performs no `wandb.log`
emission. -/
theorem claim3_runhistory_lengths :
    (∀ (Θ O In E : Type) (env : TorchEnv Θ O In E) (model : Model Θ)
      (opt : O) (dl : List (In × List Nat)) (epochs : Nat)
      (tdl : Option (List (In × List Nat))) (q : TrainOutput Θ O),
      train env model opt dl epochs tdl = .ok q →
      q.ret.1.length = epochs ∧ q.ret.2.1.length = epochs ∧
      q.ret.2.2.1.length = (if dlTruthy tdl = true then epochs else 0) ∧
      q.ret.2.2.2.length = (if dlTruthy tdl = true then epochs else 0))
    ∧ (∀ (Θ O In E : Type) (env : TorchEnv Θ O In E) (model : Model Θ)
      (opt : O) (dl : List (In × List Nat))
      (tdl : Option (List (In × List Nat))),
      train env model opt dl 0 tdl = .ok ⟨([], [], [], []), model, opt, []⟩)
    := by
  constructor
  · intro Θ O In E env model opt dl epochs tdl q h
    have hlen := epochsLoop_lengths env dl tdl epochs model opt
      [] [] [] [] [] q h
    simpa using hlen
  · intro Θ O In E env model opt dl tdl
    rfl

/-- Witness for C3 at the concrete one-epoch scenario run without
validation data. -/
theorem claim3_witness :
    [(1 : ℚ)/2].length = 1 ∧ [(5 : ℚ)/2].length = 1 ∧
    ([] : List ℚ).length
      = (if dlTruthy (none : Option (List (ℚ × List Nat))) = true
          then 1 else 0) ∧
    ([] : List ℚ).length
      = (if dlTruthy (none : Option (List (ℚ × List Nat))) = true
          then 1 else 0) :=
  claim3_runhistory_lengths.1 Unit Unit ℚ Unit scenarioEnv
    (Model.mk () Mode.trainMode) () scenarioBatches 1 none
    (TrainOutput.mk ([1/2], [5/2], [], []) (Model.mk () Mode.trainMode) ()
      [[("training_loss", 5/2), ("training_acc", 1/2)]])
    scenario_train_run

/-- The accuracy contribution of one batch is a fraction in `[0, 1]`:
it is `correct / len(prediction)` with `0 ≤ correct ≤ len(prediction)`. -/
theorem batchAccFrac_bounds {E : Type} (output : List (List ℚ))
    (target : List Nat) (f : ℚ)
    (h : (batchAccFrac output target : Except (PyErr E) ℚ) = .ok f) :
    0 ≤ f ∧ f ≤ 1 := by
  simp only [batchAccFrac, pydiv] at h
  by_cases h0 : (output.map argmaxRow).length = 0
  · rw [if_pos h0] at h
    exact Except.noConfusion h
  · rw [if_neg h0] at h
    have hf := Except.ok.inj h
    have hcn : (((output.map argmaxRow).zip target).countP
        fun p => p.1 == p.2) ≤ (output.map argmaxRow).length :=
      le_trans (List.countP_le_length _)
        (by rw [List.length_zip]; exact min_le_left _ _)
    have hnpos : (0 : ℚ) < ((output.map argmaxRow).length : ℚ) :=
      Nat.cast_pos.mpr (Nat.pos_of_ne_zero h0)
    rw [← hf]
    refine ⟨div_nonneg (Nat.cast_nonneg _) (Nat.cast_nonneg _), ?_⟩
    rw [div_le_one hnpos]
    exact_mod_cast hcn

/-- A successful `trainBatch` produces an accuracy fraction in `[0, 1]`. -/
theorem trainBatch_ok_frac {Θ O In E : Type} (env : TorchEnv Θ O In E)
    (θ : Θ) (opt : O) (b : In × List Nat) (r : Θ × O × ℚ × ℚ)
    (h : trainBatch env θ opt b = .ok r) : 0 ≤ r.2.2.2 ∧ r.2.2.2 ≤ 1 := by
  unfold trainBatch at h
  split at h
  · exact Except.noConfusion h
  · split at h
    · exact Except.noConfusion h
    · split at h
      · exact Except.noConfusion h
      · split at h
        · exact Except.noConfusion h
        · split at h
          · exact Except.noConfusion h
          · rename_i frac heq
            cases h
            exact batchAccFrac_bounds _ _ _ heq

/-- A successful `validBatch` produces an accuracy fraction in `[0, 1]`. -/
theorem validBatch_ok_frac {Θ O In E : Type} (env : TorchEnv Θ O In E)
    (θ : Θ) (b : In × List Nat) (r : ℚ × ℚ)
    (h : validBatch env θ b = .ok r) : 0 ≤ r.2 ∧ r.2 ≤ 1 := by
  unfold validBatch at h
  split at h
  · exact Except.noConfusion h
  · split at h
    · exact Except.noConfusion h
    · split at h
      · exact Except.noConfusion h
      · split at h
        · exact Except.noConfusion h
        · rename_i frac heq
          cases h
          exact batchAccFrac_bounds _ _ _ heq

/-- The `train_acc` accumulator of the `train_epoch` batch loop advances
by a sum of per-batch fractions, one per batch, each in `[0, 1]`. -/
theorem trainLoop_acc_spec {Θ O In E : Type} (env : TorchEnv Θ O In E) :
    ∀ (bs : List (In × List Nat)) (θ : Θ) (opt : O) (L A T : ℚ)
      (r : Θ × O × ℚ × ℚ × ℚ),
      trainLoop env θ opt L A T bs = .ok r →
      ∃ fracs : List ℚ, fracs.length = bs.length ∧
        r.2.2.2.1 = A + fracs.sum ∧ ∀ f ∈ fracs, 0 ≤ f ∧ f ≤ 1 := by
  intro bs
  induction bs with
  | nil =>
    intro θ opt L A T r h
    simp only [trainLoop] at h
    cases h
    exact ⟨[], rfl, by simp, by simp⟩
  | cons b bs ih =>
    intro θ opt L A T r h
    simp only [trainLoop] at h
    cases hb : trainBatch env θ opt b with
    | error e => rw [hb] at h; exact Except.noConfusion h
    | ok s =>
      obtain ⟨θ', opt', loss, frac⟩ := s
      rw [hb] at h
      obtain ⟨fracs, hlen, hsum, hbd⟩ :=
        ih θ' opt' (L + loss) (A + frac) (T + 1) r h
      obtain ⟨hf0, hf1⟩ := trainBatch_ok_frac env θ opt b
        (θ', opt', loss, frac) hb
      refine ⟨frac :: fracs, by simp [hlen], ?_, ?_⟩
      · rw [hsum, List.sum_cons]; ring
      · intro f hf
        rcases List.mem_cons.mp hf with hf | hf
        · rw [hf]; exact ⟨hf0, hf1⟩
        · exact hbd f hf

/-- The `test_acc` accumulator of the `validate_epoch` batch loop advances
by a sum of per-batch fractions, one per batch, each in `[0, 1]`. -/
theorem validLoop_acc_spec {Θ O In E : Type} (env : TorchEnv Θ O In E)
    (θ : Θ) :
    ∀ (bs : List (In × List Nat)) (L A T : ℚ) (r : ℚ × ℚ × ℚ),
      validLoop env θ L A T bs = .ok r →
      ∃ fracs : List ℚ, fracs.length = bs.length ∧
        r.2.1 = A + fracs.sum ∧ ∀ f ∈ fracs, 0 ≤ f ∧ f ≤ 1 := by
  intro bs
  induction bs with
  | nil =>
    intro L A T r h
    simp only [validLoop] at h
    cases h
    exact ⟨[], rfl, by simp, by simp⟩
  | cons b bs ih =>
    intro L A T r h
    simp only [validLoop] at h
    cases hb : validBatch env θ b with
    | error e => rw [hb] at h; exact Except.noConfusion h
    | ok s =>
      obtain ⟨loss, frac⟩ := s
      rw [hb] at h
      obtain ⟨fracs, hlen, hsum, hbd⟩ := ih (L + loss) (A + frac) (T + 1) r h
      obtain ⟨hf0, hf1⟩ := validBatch_ok_frac env θ b (loss, frac) hb
      refine ⟨frac :: fracs, by simp [hlen], ?_, ?_⟩
      · rw [hsum, List.sum_cons]; ring
      · intro f hf
        rcases List.mem_cons.mp hf with hf | hf
        · rw [hf]; exact ⟨hf0, hf1⟩
        · exact hbd f hf

/-- C4: the `total_accuracy` returned by `train_epoch`, and likewise by
`validate_epoch`, is a sum of per-batch fractions — one per batch, each
the fraction of examples in the batch whose argmax prediction equals the
target, and each in `[0, 1]` — not a running count of correct examples. -/
theorem claim4_accuracy_sum_of_batch_fractions :
    (∀ (Θ O In E : Type) (env : TorchEnv Θ O In E) (model : Model Θ)
      (opt : O) (dl : List (In × List Nat)) (r : Model Θ × O × ℚ × ℚ),
      train_epoch env model opt dl = .ok r →
      ∃ fracs : List ℚ, fracs.length = dl.length ∧ r.2.2.2 = fracs.sum ∧
        ∀ f ∈ fracs, 0 ≤ f ∧ f ≤ 1)
    ∧ (∀ (Θ O In E : Type) (env : TorchEnv Θ O In E) (model : Model Θ)
      (dl : List (In × List Nat)) (r : Model Θ × ℚ × ℚ),
      validate_epoch env model dl = .ok r →
      ∃ fracs : List ℚ, fracs.length = dl.length ∧ r.2.2 = fracs.sum ∧
        ∀ f ∈ fracs, 0 ≤ f ∧ f ≤ 1) := by
  constructor
  · intro Θ O In E env model opt dl r h
    unfold train_epoch at h
    split at h
    · exact Except.noConfusion h
    · rename_i θ' opt' L A T heq
      cases h
      obtain ⟨fracs, hlen, hsum, hbd⟩ :=
        trainLoop_acc_spec env dl model.params opt 0 0 0 (θ', opt', L, A, T)
          heq
      exact ⟨fracs, hlen, by simpa using hsum, hbd⟩
  · intro Θ O In E env model dl r h
    unfold validate_epoch at h
    split at h
    · exact Except.noConfusion h
    · rename_i L A T heq
      cases h
      obtain ⟨fracs, hlen, hsum, hbd⟩ :=
        validLoop_acc_spec env model.params dl 0 0 0 (L, A, T) heq
      exact ⟨fracs, hlen, by simpa using hsum, hbd⟩

/-- Witness for C4 at the concrete scenario `train_epoch` run: its
accuracy total 2 is a sum of 4 fractions each in `[0, 1]`. -/
theorem claim4_witness :
    ∃ fracs : List ℚ, fracs.length = 4 ∧ (2 : ℚ) = fracs.sum ∧
      ∀ f ∈ fracs, 0 ≤ f ∧ f ≤ 1 :=
  claim4_accuracy_sum_of_batch_fractions.1 Unit Unit ℚ Unit scenarioEnv
    (Model.mk () Mode.trainMode) () scenarioBatches
    (Model.mk () Mode.trainMode, (), 10, 2) scenario_epoch_run

/-- C5: `validate_epoch` never mutates the model's parameters: whenever it
returns, the parameters of the returned model state are exactly those of
the model it was given. -/
theorem claim5_validate_preserves_params :
    ∀ (Θ O In E : Type) (env : TorchEnv Θ O In E) (model : Model Θ)
      (dl : List (In × List Nat)) (r : Model Θ × ℚ × ℚ),
      validate_epoch env model dl = .ok r → r.1.params = model.params := by
  intro Θ O In E env model dl r h
  unfold validate_epoch at h
  split at h
  · exact Except.noConfusion h
  · cases h; rfl

/-- Witness for C5 at the concrete scenario validation run. -/
theorem claim5_witness :
    (Model.mk () Mode.evalMode).params = (Model.mk () Mode.trainMode).params
    :=
  claim5_validate_preserves_params Unit Unit ℚ Unit scenarioEnv
    (Model.mk () Mode.trainMode) scenarioBatches
    (Model.mk () Mode.evalMode, 10, 2) scenario_validate_run

/-- C6: `validate_epoch` is idempotent: running it again on the model
state it returned, with the same validation set and environment, yields
the same model state and the same `(total_loss, total_accuracy)`. -/
theorem claim6_validate_idempotent :
    ∀ (Θ O In E : Type) (env : TorchEnv Θ O In E) (model m' : Model Θ)
      (dl : List (In × List Nat)) (L A : ℚ),
      validate_epoch env model dl = .ok (m', L, A) →
      validate_epoch env m' dl = .ok (m', L, A) := by
  intro Θ O In E env model m' dl L A h
  unfold validate_epoch at h ⊢
  split at h
  · exact Except.noConfusion h
  · rename_i tl ta tt heq
    cases h
    simp only [heq]

/-- Witness for C6: revalidating the model state returned by the scenario
validation run reproduces `(10, 2)`. -/
theorem claim6_witness :
    validate_epoch scenarioEnv (Model.mk () Mode.evalMode) scenarioBatches
      = .ok (Model.mk () Mode.evalMode, 10, 2) :=
  claim6_validate_idempotent Unit Unit ℚ Unit scenarioEnv
    (Model.mk () Mode.trainMode) (Model.mk () Mode.evalMode) scenarioBatches
    10 2 scenario_validate_run

/-- An environment whose loss function always raises; used to exercise
error propagation. -/
def failLossEnv : TorchEnv Unit Unit ℚ Unit :=
  ⟨fun wav target => .ok (wav, target),
   fun _ _ k => .ok [[k, 0], [k, 0]],
   fun _ _ => .error (.exc ()),
   fun θ opt _ _ => .ok (θ, opt)⟩

/-- An environment whose forward pass raises in evaluation mode only; used
to exercise error propagation out of `validate_epoch`. -/
def failEvalEnv : TorchEnv Unit Unit ℚ Unit :=
  ⟨fun wav target => .ok (wav, target),
   fun _ m k =>
     match m with
     | Mode.trainMode => .ok [[k, 0], [k, 0]]
     | Mode.evalMode => .error (.exc ()),
   fun output _ => .ok ((output.headD []).headD 0),
   fun θ opt _ _ => .ok (θ, opt)⟩

/-- C7: no error recovery anywhere in the loop.  (1) If the batches
processed so far succeeded and the next batch's collaborator calls raise
`e`, `train_epoch` returns exactly `e`, abandoning the remaining batches;
(2) likewise for `validate_epoch`; (3) if `train_epoch` raises `e` in any
epoch, the epoch loop of `train` returns exactly `e`; (4) if
`validate_epoch` raises `e` in any epoch (after a successful training
pass), the epoch loop returns exactly `e`.  No exception is caught,
retried or transformed. -/
theorem claim7_exceptions_propagate :
    (∀ (Θ O In E : Type) (env : TorchEnv Θ O In E) (model : Model Θ)
      (opt : O) (l₁ : List (In × List Nat)) (b : In × List Nat)
      (l₂ : List (In × List Nat)) (s : Θ × O × ℚ × ℚ × ℚ) (e : PyErr E),
      trainLoop env model.params opt 0 0 0 l₁ = .ok s →
      trainBatch env s.1 s.2.1 b = .error e →
      train_epoch env model opt (l₁ ++ b :: l₂) = .error e)
    ∧ (∀ (Θ O In E : Type) (env : TorchEnv Θ O In E) (model : Model Θ)
      (l₁ : List (In × List Nat)) (b : In × List Nat)
      (l₂ : List (In × List Nat)) (s : ℚ × ℚ × ℚ) (e : PyErr E),
      validLoop env model.params 0 0 0 l₁ = .ok s →
      validBatch env model.params b = .error e →
      validate_epoch env model (l₁ ++ b :: l₂) = .error e)
    ∧ (∀ (Θ O In E : Type) (env : TorchEnv Θ O In E)
      (dl : List (In × List Nat)) (tdl : Option (List (In × List Nat)))
      (model : Model Θ) (opt : O) (ta tl sa sl : List ℚ)
      (logs : List (List (String × ℚ))) (k : Nat) (e : PyErr E),
      train_epoch env model opt dl = .error e →
      trainEpochsLoop env dl tdl model opt ta tl sa sl logs (k + 1)
        = .error e)
    ∧ (∀ (Θ O In E : Type) (env : TorchEnv Θ O In E)
      (dl l : List (In × List Nat)) (model m1 : Model Θ) (opt o1 : O)
      (ta tl sa sl : List ℚ) (logs : List (List (String × ℚ))) (k : Nat)
      (L A la aa : ℚ) (e : PyErr E), l.isEmpty = false →
      train_epoch env model opt dl = .ok (m1, o1, L, A) →
      (pydiv L dl.length : Except (PyErr E) ℚ) = .ok la →
      (pydiv A dl.length : Except (PyErr E) ℚ) = .ok aa →
      validate_epoch env m1 l = .error e →
      trainEpochsLoop env dl (some l) model opt ta tl sa sl logs (k + 1)
        = .error e) := by
  refine ⟨?_, ?_, ?_, ?_⟩
  · intro Θ O In E env model opt l₁ b l₂ s e h1 h2
    obtain ⟨θ', o', L, A, T⟩ := s
    dsimp only at h2
    unfold train_epoch
    rw [trainLoop_append env l₁ (b :: l₂) model.params opt 0 0 0, h1]
    simp only [trainLoop, h2]
  · intro Θ O In E env model l₁ b l₂ s e h1 h2
    obtain ⟨L, A, T⟩ := s
    unfold validate_epoch
    rw [validLoop_append env model.params l₁ (b :: l₂) 0 0 0, h1]
    simp only [validLoop, h2]
  · intro Θ O In E env dl tdl model opt ta tl sa sl logs k e htr
    exact trainEpochsLoop_trainEpoch_error env dl tdl model opt
      ta tl sa sl logs k e htr
  · intro Θ O In E env dl l model m1 opt o1 ta tl sa sl logs k L A la aa e
      hne htr hla haa hv
    exact trainEpochsLoop_validate_error env dl l model m1 opt o1
      ta tl sa sl logs k L A la aa e hne htr hla haa hv

/-- Witness for C7: concrete failing runs — a loss function that raises
makes `train_epoch`, `validate_epoch` and the epoch loop return that very
exception, and a forward pass that raises only in evaluation mode makes
the epoch loop fail at the validation step. -/
theorem claim7_witness :
    train_epoch failLossEnv (Model.mk () Mode.trainMode) () [(1, [0, 0])]
      = .error (.exc ())
    ∧ validate_epoch failLossEnv (Model.mk () Mode.trainMode) [(1, [0, 0])]
      = .error (.exc ())
    ∧ trainEpochsLoop failLossEnv [(1, [0, 0])] none
        (Model.mk () Mode.trainMode) () [] [] [] [] [] 1 = .error (.exc ())
    ∧ trainEpochsLoop failEvalEnv [(1, [0, 0])] (some [(1, [0, 0])])
        (Model.mk () Mode.trainMode) () [] [] [] [] [] 1
        = .error (.exc ()) := by
  have htr : train_epoch failEvalEnv (Model.mk () Mode.trainMode) ()
      [((1 : ℚ), [0, 0])] = .ok (Model.mk () Mode.trainMode, (), 1, 1) := by
    simp [train_epoch, trainLoop, trainBatch, batchAccFrac, pydiv, argmaxRow,
      argmaxFrom, failEvalEnv, List.countP, List.countP.go]
    norm_num [cond_eq_if]
  refine ⟨?_, ?_, ?_, ?_⟩
  · exact claim7_exceptions_propagate.1 Unit Unit ℚ Unit failLossEnv
      (Model.mk () Mode.trainMode) () [] (1, [0, 0]) [] ((), (), 0, 0, 0)
      (.exc ()) rfl rfl
  · exact claim7_exceptions_propagate.2.1 Unit Unit ℚ Unit failLossEnv
      (Model.mk () Mode.trainMode) [] (1, [0, 0]) [] (0, 0, 0) (.exc ())
      rfl rfl
  · exact claim7_exceptions_propagate.2.2.1 Unit Unit ℚ Unit failLossEnv
      [(1, [0, 0])] none (Model.mk () Mode.trainMode) () [] [] [] [] [] 0
      (.exc ()) rfl
  · exact claim7_exceptions_propagate.2.2.2 Unit Unit ℚ Unit failEvalEnv
      [(1, [0, 0])] [(1, [0, 0])] (Model.mk () Mode.trainMode)
      (Model.mk () Mode.trainMode) () () [] [] [] [] [] 0 1 1 1 1 (.exc ())
      rfl htr (by norm_num [pydiv]) (by norm_num [pydiv]) rfl

/-- On success, `train_epoch` returns a model in training mode: line 65
sets it at the start of every call and nothing restores it. -/
theorem train_epoch_mode {Θ O In E : Type} (env : TorchEnv Θ O In E)
    (model : Model Θ) (opt : O) (dl : List (In × List Nat))
    (r : Model Θ × O × ℚ × ℚ) (h : train_epoch env model opt dl = .ok r) :
    r.1.mode = Mode.trainMode := by
  unfold train_epoch at h
  split at h
  · exact Except.noConfusion h
  · cases h; rfl

/-- On success, `validate_epoch` returns a model in evaluation mode: line
92 sets it at the start of every call and nothing restores it. -/
theorem validate_epoch_mode {Θ O In E : Type} (env : TorchEnv Θ O In E)
    (model : Model Θ) (dl : List (In × List Nat)) (r : Model Θ × ℚ × ℚ)
    (h : validate_epoch env model dl = .ok r) : r.1.mode = Mode.evalMode := by
  unfold validate_epoch at h
  split at h
  · exact Except.noConfusion h
  · cases h; rfl

/-- After at least one epoch without validation data, the epoch loop
leaves the model in training mode. -/
theorem epochsLoop_none_mode {Θ O In E : Type} (env : TorchEnv Θ O In E)
    (dl : List (In × List Nat)) :
    ∀ (k : Nat) (model : Model Θ) (opt : O) (ta tl sa sl : List ℚ)
      (logs : List (List (String × ℚ))) (q : TrainOutput Θ O),
      trainEpochsLoop env dl none model opt ta tl sa sl logs (k + 1)
        = .ok q →
      q.model.mode = Mode.trainMode := by
  intro k
  induction k with
  | zero =>
    intro model opt ta tl sa sl logs q h
    cases htr : train_epoch env model opt dl with
    | error e =>
      rw [trainEpochsLoop_trainEpoch_error env dl none model opt
          ta tl sa sl logs 0 e htr] at h
      exact Except.noConfusion h
    | ok r =>
      obtain ⟨m1, o1, L, A⟩ := r
      cases hla : (pydiv L dl.length : Except (PyErr E) ℚ) with
      | error e =>
        simp only [trainEpochsLoop, htr, hla] at h
        exact Except.noConfusion h
      | ok la =>
        cases haa : (pydiv A dl.length : Except (PyErr E) ℚ) with
        | error e =>
          simp only [trainEpochsLoop, htr, hla, haa] at h
          exact Except.noConfusion h
        | ok aa =>
          rw [trainEpochsLoop_succ_none env dl model m1 opt o1
              ta tl sa sl logs 0 L A la aa htr hla haa] at h
          simp only [trainEpochsLoop] at h
          cases h
          exact train_epoch_mode env model opt dl (m1, o1, L, A) htr
  | succ k ih =>
    intro model opt ta tl sa sl logs q h
    cases htr : train_epoch env model opt dl with
    | error e =>
      rw [trainEpochsLoop_trainEpoch_error env dl none model opt
          ta tl sa sl logs (k + 1) e htr] at h
      exact Except.noConfusion h
    | ok r =>
      obtain ⟨m1, o1, L, A⟩ := r
      cases hla : (pydiv L dl.length : Except (PyErr E) ℚ) with
      | error e =>
        simp only [trainEpochsLoop, htr, hla] at h
        exact Except.noConfusion h
      | ok la =>
        cases haa : (pydiv A dl.length : Except (PyErr E) ℚ) with
        | error e =>
          simp only [trainEpochsLoop, htr, hla, haa] at h
          exact Except.noConfusion h
        | ok aa =>
          rw [trainEpochsLoop_succ_none env dl model m1 opt o1
              ta tl sa sl logs (k + 1) L A la aa htr hla haa] at h
          exact ih m1 o1 (ta ++ [aa]) (tl ++ [la]) sa sl
            (logs ++ [[("training_loss", la), ("training_acc", aa)]]) q h

/-- After at least one epoch with nonempty validation data, the epoch
loop leaves the model in evaluation mode. -/
theorem epochsLoop_some_mode {Θ O In E : Type} (env : TorchEnv Θ O In E)
    (dl : List (In × List Nat)) (b₀ : In × List Nat)
    (bs₀ : List (In × List Nat)) :
    ∀ (k : Nat) (model : Model Θ) (opt : O) (ta tl sa sl : List ℚ)
      (logs : List (List (String × ℚ))) (q : TrainOutput Θ O),
      trainEpochsLoop env dl (some (b₀ :: bs₀)) model opt ta tl sa sl logs
        (k + 1) = .ok q →
      q.model.mode = Mode.evalMode := by
  intro k
  induction k with
  | zero =>
    intro model opt ta tl sa sl logs q h
    cases htr : train_epoch env model opt dl with
    | error e =>
      rw [trainEpochsLoop_trainEpoch_error env dl (some (b₀ :: bs₀)) model
          opt ta tl sa sl logs 0 e htr] at h
      exact Except.noConfusion h
    | ok r =>
      obtain ⟨m1, o1, L, A⟩ := r
      cases hla : (pydiv L dl.length : Except (PyErr E) ℚ) with
      | error e =>
        simp only [trainEpochsLoop, htr, hla] at h
        exact Except.noConfusion h
      | ok la =>
        cases haa : (pydiv A dl.length : Except (PyErr E) ℚ) with
        | error e =>
          simp only [trainEpochsLoop, htr, hla, haa] at h
          exact Except.noConfusion h
        | ok aa =>
          cases hv : validate_epoch env m1 (b₀ :: bs₀) with
          | error e =>
            rw [trainEpochsLoop_validate_error env dl (b₀ :: bs₀) model m1
                opt o1 ta tl sa sl logs 0 L A la aa e rfl htr hla haa
                hv] at h
            exact Except.noConfusion h
          | ok rv =>
            obtain ⟨m2, VL, VA⟩ := rv
            cases hvl : (pydiv VL (b₀ :: bs₀).length
                : Except (PyErr E) ℚ) with
            | error e =>
              simp only [trainEpochsLoop, htr, hla, haa, hv, hvl,
                List.isEmpty_cons, Bool.false_eq_true, if_false] at h
              exact Except.noConfusion h
            | ok vla =>
              cases hva : (pydiv VA (b₀ :: bs₀).length
                  : Except (PyErr E) ℚ) with
              | error e =>
                simp only [trainEpochsLoop, htr, hla, haa, hv, hvl, hva,
                  List.isEmpty_cons, Bool.false_eq_true, if_false] at h
                exact Except.noConfusion h
              | ok vaa =>
                rw [trainEpochsLoop_succ_some env dl (b₀ :: bs₀) model m1
                    m2 opt o1 ta tl sa sl logs 0 L A la aa VL VA vla vaa
                    rfl htr hla haa hv hvl hva] at h
                simp only [trainEpochsLoop] at h
                cases h
                exact validate_epoch_mode env m1 (b₀ :: bs₀) (m2, VL, VA) hv
  | succ k ih =>
    intro model opt ta tl sa sl logs q h
    cases htr : train_epoch env model opt dl with
    | error e =>
      rw [trainEpochsLoop_trainEpoch_error env dl (some (b₀ :: bs₀)) model
          opt ta tl sa sl logs (k + 1) e htr] at h
      exact Except.noConfusion h
    | ok r =>
      obtain ⟨m1, o1, L, A⟩ := r
      cases hla : (pydiv L dl.length : Except (PyErr E) ℚ) with
      | error e =>
        simp only [trainEpochsLoop, htr, hla] at h
        exact Except.noConfusion h
      | ok la =>
        cases haa : (pydiv A dl.length : Except (PyErr E) ℚ) with
        | error e =>
          simp only [trainEpochsLoop, htr, hla, haa] at h
          exact Except.noConfusion h
        | ok aa =>
          cases hv : validate_epoch env m1 (b₀ :: bs₀) with
          | error e =>
            rw [trainEpochsLoop_validate_error env dl (b₀ :: bs₀) model m1
                opt o1 ta tl sa sl logs (k + 1) L A la aa e rfl htr hla haa
                hv] at h
            exact Except.noConfusion h
          | ok rv =>
            obtain ⟨m2, VL, VA⟩ := rv
            cases hvl : (pydiv VL (b₀ :: bs₀).length
                : Except (PyErr E) ℚ) with
            | error e =>
              simp only [trainEpochsLoop, htr, hla, haa, hv, hvl,
                List.isEmpty_cons, Bool.false_eq_true, if_false] at h
              exact Except.noConfusion h
            | ok vla =>
              cases hva : (pydiv VA (b₀ :: bs₀).length
                  : Except (PyErr E) ℚ) with
              | error e =>
                simp only [trainEpochsLoop, htr, hla, haa, hv, hvl, hva,
                  List.isEmpty_cons, Bool.false_eq_true, if_false] at h
                exact Except.noConfusion h
              | ok vaa =>
                rw [trainEpochsLoop_succ_some env dl (b₀ :: bs₀) model m1
                    m2 opt o1 ta tl sa sl logs (k + 1) L A la aa VL VA vla
                    vaa rfl htr hla haa hv hvl hva] at h
                exact ih m2 o1 (ta ++ [aa]) (tl ++ [la]) (sa ++ [vaa])
                  (sl ++ [vla])
                  ((logs ++ [[("training_loss", la), ("training_acc", aa)]])
                    ++ [[("testing_loss", vla), ("testing_acc", vaa)]]) q h

/-- C10: `train_epoch` itself puts the model in training mode and
`validate_epoch` itself puts it in evaluation mode, and neither restores
the previous mode on exit; consequently a successful run of `train` with
(nonempty) validation data leaves the model in evaluation mode, and a
successful run without validation data leaves it in training mode. -/
theorem claim10_mode_flags :
    (∀ (Θ O In E : Type) (env : TorchEnv Θ O In E) (model : Model Θ)
      (opt : O) (dl : List (In × List Nat)) (r : Model Θ × O × ℚ × ℚ),
      train_epoch env model opt dl = .ok r → r.1.mode = Mode.trainMode)
    ∧ (∀ (Θ O In E : Type) (env : TorchEnv Θ O In E) (model : Model Θ)
      (dl : List (In × List Nat)) (r : Model Θ × ℚ × ℚ),
      validate_epoch env model dl = .ok r → r.1.mode = Mode.evalMode)
    ∧ (∀ (Θ O In E : Type) (env : TorchEnv Θ O In E) (model : Model Θ)
      (opt : O) (dl : List (In × List Nat)) (b : In × List Nat)
      (bs : List (In × List Nat)) (k : Nat) (q : TrainOutput Θ O),
      train env model opt dl (k + 1) (some (b :: bs)) = .ok q →
      q.model.mode = Mode.evalMode)
    ∧ (∀ (Θ O In E : Type) (env : TorchEnv Θ O In E) (model : Model Θ)
      (opt : O) (dl : List (In × List Nat)) (k : Nat) (q : TrainOutput Θ O),
      train env model opt dl (k + 1) none = .ok q →
      q.model.mode = Mode.trainMode) := by
  refine ⟨?_, ?_, ?_, ?_⟩
  · intro Θ O In E env model opt dl r h
    exact train_epoch_mode env model opt dl r h
  · intro Θ O In E env model dl r h
    exact validate_epoch_mode env model dl r h
  · intro Θ O In E env model opt dl b bs k q h
    exact epochsLoop_some_mode env dl b bs k model opt [] [] [] [] [] q h
  · intro Θ O In E env model opt dl k q h
    exact epochsLoop_none_mode env dl k model opt [] [] [] [] [] q h

/-- Witness for C10 at the concrete scenario runs with and without
validation data. -/
theorem claim10_witness :
    (Model.mk () Mode.trainMode).mode = Mode.trainMode
    ∧ (Model.mk () Mode.evalMode).mode = Mode.evalMode
    ∧ (TrainOutput.mk ([1/2], [5/2], [1/2], [5/2])
        (Model.mk () Mode.evalMode) ()
        [[("training_loss", 5/2), ("training_acc", 1/2)],
         [("testing_loss", 5/2), ("testing_acc", 1/2)]]).model.mode
      = Mode.evalMode
    ∧ (TrainOutput.mk ([1/2], [5/2], [], []) (Model.mk () Mode.trainMode) ()
        [[("training_loss", 5/2), ("training_acc", 1/2)]]).model.mode
      = Mode.trainMode := by
  refine ⟨?_, ?_, ?_, ?_⟩
  · exact claim10_mode_flags.1 Unit Unit ℚ Unit scenarioEnv
      (Model.mk () Mode.trainMode) () scenarioBatches
      (Model.mk () Mode.trainMode, (), 10, 2) scenario_epoch_run
  · exact claim10_mode_flags.2.1 Unit Unit ℚ Unit scenarioEnv
      (Model.mk () Mode.trainMode) scenarioBatches
      (Model.mk () Mode.evalMode, 10, 2) scenario_validate_run
  · exact claim10_mode_flags.2.2.1 Unit Unit ℚ Unit scenarioEnv
      (Model.mk () Mode.trainMode) () scenarioBatches (1, [0, 0])
      [(2, [0, 1]), (3, [0, 1]), (4, [1, 1])] 0
      (TrainOutput.mk ([1/2], [5/2], [1/2], [5/2])
        (Model.mk () Mode.evalMode) ()
        [[("training_loss", 5/2), ("training_acc", 1/2)],
         [("testing_loss", 5/2), ("testing_acc", 1/2)]])
      scenario_train_valid_run
  · exact claim10_mode_flags.2.2.2 Unit Unit ℚ Unit scenarioEnv
      (Model.mk () Mode.trainMode) () scenarioBatches 0
      (TrainOutput.mk ([1/2], [5/2], [], []) (Model.mk () Mode.trainMode) ()
        [[("training_loss", 5/2), ("training_acc", 1/2)]])
      scenario_train_run

/-- C2 (amended): `train` returns the per-epoch metric series to its
caller as the quadruple `(training_acc, training_loss, testing_acc,
testing_loss)` — accuracy before loss, as on line 57 — with each training
series appended to once per epoch; on the concrete one-epoch scenario the
returned quadruple is `([1/2], [5/2], [], [])`. -/
theorem claim2_runhistory_order :
    (∀ (Θ O In E : Type) (env : TorchEnv Θ O In E) (model : Model Θ)
      (opt : O) (dl : List (In × List Nat)) (epochs : Nat)
      (tdl : Option (List (In × List Nat))) (q : TrainOutput Θ O),
      train env model opt dl epochs tdl = .ok q →
      q.ret.1.length = epochs ∧ q.ret.2.1.length = epochs)
    ∧ train scenarioEnv (Model.mk () Mode.trainMode) () scenarioBatches 1
        none
      = .ok ⟨([1/2], [5/2], [], []), Model.mk () Mode.trainMode, (),
          [[("training_loss", 5/2), ("training_acc", 1/2)]]⟩ := by
  constructor
  · intro Θ O In E env model opt dl epochs tdl q h
    have hlen := epochsLoop_lengths env dl tdl epochs model opt
      [] [] [] [] [] q h
    exact ⟨by simpa using hlen.1, by simpa using hlen.2.1⟩
  · exact scenario_train_run

/-- Witness for C2 (amended) at the concrete one-epoch scenario run. -/
theorem claim2_witness :
    [(1 : ℚ)/2].length = 1 ∧ [(5 : ℚ)/2].length = 1 :=
  claim2_runhistory_order.1 Unit Unit ℚ Unit scenarioEnv
    (Model.mk () Mode.trainMode) () scenarioBatches 1 none
    (TrainOutput.mk ([1/2], [5/2], [], []) (Model.mk () Mode.trainMode) ()
      [[("training_loss", 5/2), ("training_acc", 1/2)]])
    scenario_train_run

end VoidTrain
